import Mathlib

/-!
Verification of the worker supervision and pool-management subsystem of
`edge-runtime` (`crates/base/src/rt_worker/worker_ctx.rs` and
`crates/base/src/worker_ctx.rs`), as a shallow embedding in Lean 4.

Times are in milliseconds as natural numbers; machine integers of the
source (`u64`, `usize`, `u128`) are modelled as `Nat` (elapsed-time and
burst arithmetic never approaches the wrap points).
-/

namespace EdgeRuntime

/-- Modelled from the spec: the `WorkerEvents` enum of the `event_worker`
crate is not under `src/`. The terminal kinds follow the spec's terminal
state list {CpuTimeLimit, WallClockTimeLimit, MemoryLimit, Dropped}, plus
the `Boot` event used on successful worker boot. -/
inductive WorkerEvents where
  | Boot (bootTimeMs : Nat)
  | CpuTimeLimit
  | WallClockTimeLimit
  | MemoryLimit
  | Dropped
  deriving DecidableEq, Repr

/-- The fields of the user-worker runtime configuration that
`create_supervisor` reads (`conf.as_user_worker().unwrap().clone()`):
CPU-time threshold, CPU-burst interval, max CPU bursts, wall-clock
timeout, and the low-memory multiplier. -/
structure UserWorkerRuntimeOpts where
  cpu_time_threshold_ms : Nat
  cpu_burst_interval_ms : Nat
  max_cpu_bursts : Nat
  worker_timeout_ms : Nat
  low_memory_multiplier : Nat
  deriving DecidableEq, Repr

/-- Modelled from the spec: `WorkerRuntimeOpts` of the `sb_worker_context`
crate is not under `src/`; the spec describes worker kinds as a tagged
variant of "main" vs "user" vs "events" workers, only the user variant
carrying the resource-limit configuration. -/
inductive WorkerRuntimeOpts where
  | MainWorker
  | UserWorker (conf : UserWorkerRuntimeOpts)
  | EventsWorker
  deriving DecidableEq, Repr

/-- `WorkerRuntimeOpts::as_user_worker`: the accessor returning the
user-worker configuration when the variant is `UserWorker`, `None`
otherwise (modelled from the spec together with `WorkerRuntimeOpts`). -/
def WorkerRuntimeOpts.as_user_worker : WorkerRuntimeOpts → Option UserWorkerRuntimeOpts
  | .UserWorker conf => some conf
  | _ => none

/-- The near-heap-limit callback registered by `create_supervisor`:
it returns `cur * (conf.low_memory_multiplier as usize)` as the new soft
heap cap (after sending the memory-pressure notification, which does not
affect the returned value). -/
def near_heap_limit_cb (low_memory_multiplier : Nat) (cur : Nat) : Nat :=
  cur * low_memory_multiplier

/-- One wakeup observed by the supervisor's three-way `tokio::select!`:
a CPU alarm delivered at absolute time `now` (ms since supervisor start),
the wall-clock `sleep` elapsing, or a memory-pressure notification.
A closed sender never delivers a wakeup (its `Some(_) = rx.recv()` branch
is simply disabled), so channel closure is the absence of signals here. -/
inductive SupervisorSignal where
  | cpuAlarm (now : Nat)
  | wallClock
  | memoryPressure
  deriving DecidableEq, Repr

/-- The supervisor loop's mutable state: `bursts` and `last_burst`
(recorded as absolute ms since supervisor start; initially `Instant::now()`
of the loop start, i.e. 0). -/
structure SupervisorState where
  bursts : Nat
  last_burst : Nat
  deriving DecidableEq, Repr

/-- `v8::IsolateHandle::terminate_execution`: returns whether termination
was scheduled; the supervisor discards this result, so it is a pure
passthrough of the environment-chosen outcome `ok`. -/
def terminate_execution (ok : Bool) : Bool := ok

/-- The CPU-alarm branch's state update: if
`last_burst.elapsed().as_millis() > cpu_burst_interval_ms` (elapsed at
alarm time `now` being `now - last_burst`), increment `bursts` and reset
`last_burst` to `Instant::now()`; otherwise leave the state unchanged. -/
def cpuAlarmUpdate (conf : UserWorkerRuntimeOpts) (s : SupervisorState)
    (now : Nat) : SupervisorState :=
  if now - s.last_burst > conf.cpu_burst_interval_ms then
    { bursts := s.bursts + 1, last_burst := now }
  else s

/-- The supervisor's `select!` loop, run over the sequence of wakeups it
observes. State starts at `{bursts := 0, last_burst := now}`; `terms`
counts calls to `terminate_execution`. On a CPU alarm: apply
`cpuAlarmUpdate`, then if `bursts > max_cpu_bursts`, terminate and return
`CpuTimeLimit`. The wall-clock branch terminates and returns
`WallClockTimeLimit`; the memory branch terminates and returns
`MemoryLimit`. `termOk` is the (discarded) result of each
`terminate_execution` call. An exhausted trace leaves the loop still
running (`none`). -/
def superviseLoop (conf : UserWorkerRuntimeOpts) (termOk : Bool)
    (s : SupervisorState) (terms : Nat) :
    List SupervisorSignal → Option WorkerEvents × Nat × SupervisorState
  | [] => (none, terms, s)
  | SupervisorSignal.cpuAlarm now :: rest =>
      if (cpuAlarmUpdate conf s now).bursts > conf.max_cpu_bursts then
        (some WorkerEvents.CpuTimeLimit,
         terms + (if terminate_execution termOk then 1 else 1),
         cpuAlarmUpdate conf s now)
      else
        superviseLoop conf termOk (cpuAlarmUpdate conf s now) terms rest
  | SupervisorSignal.wallClock :: _ =>
      (some WorkerEvents.WallClockTimeLimit,
       terms + (if terminate_execution termOk then 1 else 1), s)
  | SupervisorSignal.memoryPressure :: _ =>
      (some WorkerEvents.MemoryLimit,
       terms + (if terminate_execution termOk then 1 else 1), s)

/-- The supervisor thread body: run the loop from the initial state, then
send the resulting termination event over `termination_event_tx` (a single
`let _ = termination_event_tx.send(result)` after `block_on`). The value is
the list of events sent over the oneshot reply channel: one send after the
loop returns, none while it still runs. -/
def supervisorThreadSends (conf : UserWorkerRuntimeOpts) (termOk : Bool)
    (sigs : List SupervisorSignal) : List WorkerEvents :=
  match (superviseLoop conf termOk ⟨0, 0⟩ 0 sigs).1 with
  | some ev => [ev]
  | none => []

/-- `create_supervisor`'s fallible prefix: it unwraps
`worker_runtime.conf.as_user_worker()` (panic modelled as `none`), then
starts the CPU timer, which may fail with an error (`cpuTimerOk` is the
environment-chosen outcome of `CPUTimer::start`); on success it returns
the configuration the spawned supervisor thread closes over. -/
def create_supervisor (conf : WorkerRuntimeOpts) (cpuTimerOk : Bool) :
    Option (Except Unit UserWorkerRuntimeOpts) :=
  match conf.as_user_worker with
  | none => none
  | some userConf =>
      some (if cpuTimerOk then Except.ok userConf else Except.error ())

/-! ### Request path: `handle_request` and `send_user_worker_request` -/

/-- The fate of a `tokio::sync::oneshot` sender, as the receiver observes
it: either a value was sent, or the sender was dropped without sending
(in which case `res_rx.await` resolves with `RecvError` — the tokio
oneshot contract, part of the embedding's channel model). -/
inductive OneshotFate (α : Type) where
  | sent (a : α)
  | dropped
  deriving DecidableEq, Repr

/-- Errors surfaced to a request caller by `send_user_worker_request`. -/
inductive RequestError where
  | transportSetup
  | hyper (code : Nat)
  | channelClosed
  | recvError
  deriving DecidableEq, Repr

/-- `handle_request`: create a unix socket pair (`pairOk` is the
environment-chosen outcome), hand one end to the worker, perform the
hyper client handshake (`handshakeOk`), then send the request and forward
the outcome — success or hyper error `sendResult` — to `msg.res_tx`.
A `?` failure in the setup steps returns early, dropping `msg` (and with
it `res_tx`) without sending. The result pairs the function's own
`Result<(), Error>` with the fate of the envelope's reply sender. -/
def handle_request (pairOk handshakeOk : Bool) (sendResult : Except Nat Nat) :
    Except Unit Unit × OneshotFate (Except Nat Nat) :=
  if pairOk = false then (Except.error (), OneshotFate.dropped)
  else if handshakeOk = false then (Except.error (), OneshotFate.dropped)
  else (Except.ok (), OneshotFate.sent sendResult)

/-- `send_user_worker_request`: build a fresh oneshot and a
`WorkerRequestMsg`, send it over `worker_channel` (`channelOpen` false
models the intake receiver already dropped, making `send` fail), then
`res_rx.await??`: a dropped sender yields `RecvError`, a sent
`Err(hyper)` yields that error, a sent `Ok(resp)` yields the response. -/
def send_user_worker_request (channelOpen : Bool)
    (fate : OneshotFate (Except Nat Nat)) : Except RequestError Nat :=
  if channelOpen = false then Except.error RequestError.channelClosed
  else
    match fate with
    | OneshotFate.dropped => Except.error RequestError.recvError
    | OneshotFate.sent (Except.error code) => Except.error (RequestError.hyper code)
    | OneshotFate.sent (Except.ok resp) => Except.ok resp

/-- The end-to-end resolution a caller of `send_user_worker_request`
observes when the envelope it enqueued is consumed by `handle_request`
with the given transport outcomes (or never consumed: a closed channel). -/
def callerResolution (channelOpen pairOk handshakeOk : Bool)
    (sendResult : Except Nat Nat) : Except RequestError Nat :=
  send_user_worker_request channelOpen (handle_request pairOk handshakeOk sendResult).2

/-! ### `create_worker` (rt_worker) -/

/-- The observable outcome of one `create_worker` call: whether the
request-intake task was spawned, whether it was aborted, and the returned
`Result` (the intake channel sender — modelled as a unit token — or the
propagated error). -/
structure CreateWorkerRun where
  intakeSpawned : Bool
  intakeAborted : Bool
  result : Except Nat Unit
  deriving Repr

/-- `create_worker`: `Worker::new` may fail before anything is spawned
(`workerNew`); otherwise the intake task is spawned and the caller awaits
the boot-result oneshot. `bootRecv` is what that await yields: the boot
result sent by the worker thread, or `dropped` (`RecvError`, propagated by
`?` without aborting the intake task). A received `Err` aborts the intake
task and is propagated via `bail!`; a received `Ok` sends the `Boot` event
and returns the intake sender. (The downcast to `Worker` always succeeds:
the box was just built from a `Worker`.) -/
def create_worker (workerNew : Except Nat Unit)
    (bootRecv : OneshotFate (Except Nat Unit)) : CreateWorkerRun :=
  match workerNew with
  | Except.error e =>
      { intakeSpawned := false, intakeAborted := false, result := Except.error e }
  | Except.ok _ =>
      match bootRecv with
      | OneshotFate.dropped =>
          { intakeSpawned := true, intakeAborted := false, result := Except.error 0 }
      | OneshotFate.sent (Except.error e) =>
          { intakeSpawned := true, intakeAborted := true, result := Except.error e }
      | OneshotFate.sent (Except.ok _) =>
          { intakeSpawned := true, intakeAborted := false, result := Except.ok () }

/-! ### The rt_worker pool actor -/

/-- The user-worker table of the rt_worker pool: identity (`u64` key) to
the worker's pending intake queue (request ids, oldest first). The
`WorkerPool` struct itself lives in `rt_worker/worker_pool.rs`, which is
not under `src/`; the table shape follows the spec's `WorkerPoolTable`. -/
structure RtPoolState where
  user_workers : List (Nat × List Nat)
  deriving DecidableEq, Repr

/-- Look up a worker identity in the table. -/
def RtPoolState.lookup (st : RtPoolState) (key : Nat) : Option (List Nat) :=
  List.lookup key st.user_workers

/-- Modelled from the spec: `WorkerPool::send_request` of
`rt_worker/worker_pool.rs` (not under `src/`): "look up `identity`; if
absent, reply with a not-found error; otherwise forward the request onto
that Worker's intake queue" — the pool replies nothing itself on the
found path. Returns the pool's own reply (a not-found error or nothing)
and the updated state. -/
def RtPoolState.send_request (st : RtPoolState) (key req : Nat) :
    Option Unit × RtPoolState :=
  match st.lookup key with
  | none => (some (), st)
  | some _ =>
      (none,
       { user_workers :=
           st.user_workers.map fun p =>
             if p.1 = key then (p.1, p.2 ++ [req]) else p })

/-- Modelled from the spec: `WorkerPool::create_worker` of
`rt_worker/worker_pool.rs` (not under `src/`): "boot a new Worker (4.2),
insert into the table on success, and reply with the new identity; on
boot failure, reply with an error and do not insert". The boot itself is
the embedded `create_worker` run. -/
def RtPoolState.create_worker (st : RtPoolState) (key : Nat)
    (run : CreateWorkerRun) : RtPoolState × Except Nat Nat :=
  match run.result with
  | Except.error e => (st, Except.error e)
  | Except.ok _ =>
      ({ user_workers := (key, []) :: st.user_workers }, Except.ok key)

/-- Modelled from the spec: `WorkerPool::shutdown` of
`rt_worker/worker_pool.rs` (not under `src/`): "remove `identity` from
the table (if present) and invoke the Worker's `shutdown`". -/
def RtPoolState.shutdown (st : RtPoolState) (key : Nat) : RtPoolState :=
  { user_workers := st.user_workers.filter fun p => p.1 != key }

/-- A message of the `UserWorkerMsgs` control-plane queue, as consumed by
the actor of `create_user_worker_pool`. `createOk` carries the
environment-chosen outcome of the boot performed by a `Create` (the actor
discards the handler's `Result` via `let _ = ...`). -/
inductive UserWorkerMsgs where
  | Create (key : Nat) (createOk : Bool)
  | SendRequest (key req : Nat)
  | Shutdown (key : Nat)
  deriving DecidableEq, Repr

/-- The actor loop of `create_user_worker_pool`: receive from the queue
until it is closed (end of list = `recv()` returning `None` = `break`);
dispatch each message to the pool handler, discarding per-request
failures; continue with the next message. Returns the final table and
the list of messages actually handled, in handling order. -/
def create_user_worker_pool_loop (st : RtPoolState) :
    List UserWorkerMsgs → RtPoolState × List UserWorkerMsgs
  | [] => (st, [])
  | msg :: rest =>
      let st' : RtPoolState :=
        match msg with
        | UserWorkerMsgs.Create key createOk =>
            (st.create_worker key
              (create_worker (Except.ok ())
                (OneshotFate.sent
                  (if createOk then Except.ok () else Except.error 1)))).1
        | UserWorkerMsgs.SendRequest key req => (st.send_request key req).2
        | UserWorkerMsgs.Shutdown key => st.shutdown key
      let next := create_user_worker_pool_loop st' rest
      (next.1, msg :: next.2)

/-! ### The legacy pool loop (`crates/base/src/worker_ctx.rs`) -/

/-- The legacy `WorkerPool::new` actor state: the `user_workers` map
(service-path key to worker-context id), a supply of fresh context ids,
and a count of user workers booted so far. -/
structure LegacyPoolState where
  user_workers : List (String × Nat)
  nextId : Nat
  boots : Nat
  deriving DecidableEq, Repr

/-- The `UserWorkerMsgs::Create` arm of the legacy `WorkerPool::new` loop:
`key = worker_options.service_path`; if the map does not contain `key`,
boot a new worker context and insert it; in all cases reply
`CreateUserWorkerResult { key }` to the caller. Returns the new state and
the replied key. -/
def legacyCreate (st : LegacyPoolState) (key : String) :
    LegacyPoolState × String :=
  if (List.lookup key st.user_workers).isSome then (st, key)
  else
    ({ user_workers := (key, st.nextId) :: st.user_workers,
       nextId := st.nextId + 1,
       boots := st.boots + 1 }, key)

/-- The legacy loop restricted to a sequence of `Create` messages:
process each in arrival order, collecting `(requested key, replied key)`
pairs. -/
def legacyCreateRun (st : LegacyPoolState) :
    List String → LegacyPoolState × List (String × String)
  | [] => (st, [])
  | key :: rest =>
      let step := legacyCreate st key
      let next := legacyCreateRun step.1 rest
      (next.1, (key, step.2) :: next.2)

/-! ## Helper lemmas -/

/-- Any event the supervisor loop returns is one of the three limit
events. -/
lemma superviseLoop_event_cases (conf : UserWorkerRuntimeOpts)
    (termOk : Bool) :
    ∀ (sigs : List SupervisorSignal) (s : SupervisorState) (terms : Nat)
      (ev : WorkerEvents),
      (superviseLoop conf termOk s terms sigs).1 = some ev →
      ev = WorkerEvents.CpuTimeLimit ∨ ev = WorkerEvents.WallClockTimeLimit ∨
        ev = WorkerEvents.MemoryLimit := by
  intro sigs
  induction sigs with
  | nil => intro s terms ev h; simp [superviseLoop] at h
  | cons sig rest ih =>
    intro s terms ev h
    cases sig with
    | cpuAlarm now =>
      rw [superviseLoop] at h
      by_cases hb : (cpuAlarmUpdate conf s now).bursts > conf.max_cpu_bursts
      · rw [if_pos hb] at h
        exact Or.inl (Option.some_injective _ h).symm
      · rw [if_neg hb] at h
        exact ih (cpuAlarmUpdate conf s now) terms ev h
    | wallClock =>
      rw [superviseLoop] at h
      exact Or.inr (Or.inl (Option.some_injective _ h).symm)
    | memoryPressure =>
      rw [superviseLoop] at h
      exact Or.inr (Or.inr (Option.some_injective _ h).symm)

/-- If the wall-clock deadline is among the observed wakeups, the loop
returns (the wall-clock branch unconditionally ends the loop, so a trace
containing it cannot exhaust while still running). -/
lemma superviseLoop_isSome_of_wallClock (conf : UserWorkerRuntimeOpts)
    (termOk : Bool) :
    ∀ (sigs : List SupervisorSignal) (s : SupervisorState) (terms : Nat),
      SupervisorSignal.wallClock ∈ sigs →
      ((superviseLoop conf termOk s terms sigs).1).isSome = true := by
  intro sigs
  induction sigs with
  | nil => intro s terms h; cases h
  | cons sig rest ih =>
    intro s terms h
    cases sig with
    | cpuAlarm now =>
      have hmem : SupervisorSignal.wallClock ∈ rest := by
        rcases List.mem_cons.mp h with h1 | h1
        · exact absurd h1 (by simp)
        · exact h1
      rw [superviseLoop]
      by_cases hb : (cpuAlarmUpdate conf s now).bursts > conf.max_cpu_bursts
      · rw [if_pos hb]; rfl
      · rw [if_neg hb]
        exact ih (cpuAlarmUpdate conf s now) terms hmem
    | wallClock => rw [superviseLoop]; rfl
    | memoryPressure => rw [superviseLoop]; rfl

/-- Keys present in an association list are exactly those whose lookup
succeeds. -/
lemma lookup_isSome_iff_mem_keys (l : List (String × Nat)) (k : String) :
    (List.lookup k l).isSome ↔ k ∈ l.map Prod.fst := by
  induction l with
  | nil => simp [List.lookup]
  | cons p rest ih =>
    obtain ⟨a, b⟩ := p
    by_cases h : k = a
    · subst h; simp [List.lookup]
    · have hb : (k == a) = false := beq_eq_false_iff_ne.mpr h
      simp [List.lookup, hb, ih, h]

/-- The legacy `Create` arm always replies with the requested key. -/
lemma legacyCreate_snd (st : LegacyPoolState) (key : String) :
    (legacyCreate st key).2 = key := by
  rw [legacyCreate]
  by_cases h : (List.lookup key st.user_workers).isSome
  · rw [if_pos h]
  · rw [if_neg h]

/-! ## Claims -/

/-- C1. For every run of the Supervisor — over every trace of wakeups,
so regardless of which of the three signal sources (CPU alarm, wall-clock
deadline, memory-pressure notification) wins the race, and regardless of
whether the engine termination call succeeds (`termOk` arbitrary and
discarded) — at most one termination event is ever sent over the
supervisor's oneshot reply channel, and exactly one is sent whenever the
race resolves (the wall-clock deadline, always armed, being among the
wakeups guarantees resolution): never zero and never more than one. -/
theorem supervisor_sends_exactly_one_event (conf : UserWorkerRuntimeOpts)
    (termOk : Bool) (sigs : List SupervisorSignal) :
    (supervisorThreadSends conf termOk sigs).length ≤ 1 ∧
    (SupervisorSignal.wallClock ∈ sigs →
      (supervisorThreadSends conf termOk sigs).length = 1) := by
  constructor
  · rw [supervisorThreadSends]
    cases h : (superviseLoop conf termOk ⟨0, 0⟩ 0 sigs).1 <;> simp
  · intro hmem
    rw [supervisorThreadSends]
    have hs := superviseLoop_isSome_of_wallClock conf termOk sigs ⟨0, 0⟩ 0 hmem
    obtain ⟨ev, hev⟩ := Option.isSome_iff_exists.mp hs
    rw [hev]
    rfl

/-- Witness for C1: the memory signal wins the race ahead of the
wall-clock deadline and the termination call fails (`termOk = false`);
exactly one event is still sent. -/
theorem supervisor_sends_exactly_one_event_witness :
    (supervisorThreadSends ⟨50, 100, 2, 1000, 2⟩ false
      [SupervisorSignal.memoryPressure, SupervisorSignal.wallClock]).length
      = 1 :=
  (supervisor_sends_exactly_one_event ⟨50, 100, 2, 1000, 2⟩ false
    [SupervisorSignal.memoryPressure, SupervisorSignal.wallClock]).2
    (by decide)

/-- C2. The burst counter is incremented exactly on those CPU alarms
whose elapsed time since the previously counted burst exceeds the
configured burst interval, and `CpuTimeLimit` is emitted exactly when the
counter exceeds the configured maximum; concretely, with burst interval
100 ms and max bursts 2, three alarms spaced 150 ms apart bring the
counter to 3 and emit `CpuTimeLimit` after the third alarm, with exactly
one `terminate_execution` call. -/
theorem cpu_burst_counting (conf : UserWorkerRuntimeOpts) (termOk : Bool)
    (s : SupervisorState) (terms t : Nat) :
    ((superviseLoop conf termOk s terms [SupervisorSignal.cpuAlarm t]).2.2
       = cpuAlarmUpdate conf s t) ∧
    ((cpuAlarmUpdate conf s t).bursts
       = if t - s.last_burst > conf.cpu_burst_interval_ms then s.bursts + 1
         else s.bursts) ∧
    ((superviseLoop conf termOk s terms [SupervisorSignal.cpuAlarm t]).1
        = some WorkerEvents.CpuTimeLimit ↔
      (cpuAlarmUpdate conf s t).bursts > conf.max_cpu_bursts) ∧
    (superviseLoop ⟨50, 100, 2, 100000, 1⟩ termOk ⟨0, 0⟩ 0
        [SupervisorSignal.cpuAlarm 150, SupervisorSignal.cpuAlarm 300,
         SupervisorSignal.cpuAlarm 450]
      = (some WorkerEvents.CpuTimeLimit, 1, ⟨3, 450⟩)) := by
  refine ⟨?_, ?_, ?_, ?_⟩
  · by_cases hb : (cpuAlarmUpdate conf s t).bursts > conf.max_cpu_bursts
    · rw [superviseLoop, if_pos hb]
    · rw [superviseLoop, if_neg hb, superviseLoop]
  · rw [cpuAlarmUpdate]
    by_cases hc : t - s.last_burst > conf.cpu_burst_interval_ms
    · rw [if_pos hc, if_pos hc]
    · rw [if_neg hc, if_neg hc]
  · by_cases hb : (cpuAlarmUpdate conf s t).bursts > conf.max_cpu_bursts
    · rw [superviseLoop, if_pos hb]; simp [hb]
    · rw [superviseLoop, if_neg hb, superviseLoop]; simp [hb]
  · cases termOk <;> rfl

/-- C3 counterexample. With `low_memory_multiplier = 1` and current heap
usage 100, the near-heap-limit callback returns `100 * 1 = 100`, which is
not strictly larger than the current usage — refuting the claim that the
returned soft cap is always strictly larger than `current`. -/
theorem near_heap_limit_cb_not_strictly_larger :
    near_heap_limit_cb 1 100 = 100 * 1 ∧
      ¬ (100 < near_heap_limit_cb 1 100) := by
  exact ⟨rfl, by decide⟩

/-- C3 amended. The near-heap-limit callback returns
`current * low_memory_multiplier`, and this returned soft cap is strictly
larger than `current` provided the multiplier exceeds 1 and the current
usage is positive. -/
theorem near_heap_limit_cb_grace (m cur : Nat) :
    near_heap_limit_cb m cur = cur * m ∧
    (1 < m → 0 < cur → cur < near_heap_limit_cb m cur) := by
  refine ⟨rfl, fun hm hc => ?_⟩
  show cur < cur * m
  exact (lt_mul_iff_one_lt_right hc).mpr hm

/-- Witness for C3's amended theorem: multiplier 2 on 100 bytes yields a
strictly larger cap of 200. -/
theorem near_heap_limit_cb_grace_witness :
    near_heap_limit_cb 2 100 = 100 * 2 ∧ 100 < near_heap_limit_cb 2 100 :=
  ⟨(near_heap_limit_cb_grace 2 100).1,
   (near_heap_limit_cb_grace 2 100).2 (by decide) (by decide)⟩

/-- C4. A `SendRequest` whose identity has no live table entry makes the
pool reply with a not-found error and leaves the state — the table and
every live worker's intake queue — unchanged. -/
theorem send_request_unknown_identity (st : RtPoolState) (key req : Nat)
    (h : st.lookup key = none) :
    st.send_request key req = (some (), st) := by
  simp only [RtPoolState.send_request, h]

/-- Witness for C4: a table holding worker 1 receives a request for the
unknown identity 2; the reply is the not-found error and the table (and
worker 1's queue) is unchanged. -/
theorem send_request_unknown_identity_witness :
    RtPoolState.send_request ⟨[(1, [5])]⟩ 2 7 = (some (), ⟨[(1, [5])]⟩) :=
  send_request_unknown_identity ⟨[(1, [5])]⟩ 2 7 (by decide)

/-- C5. When the worker boot fails (the boot-result oneshot delivers
`Err e`), the in-flight request-intake task is aborted, the boot error is
propagated to the caller, and the pool's create replies with the error
while inserting nothing: the table is unchanged. -/
theorem boot_failure_no_insert (st : RtPoolState) (key e : Nat) :
    (create_worker (Except.ok ())
        (OneshotFate.sent (Except.error e))).intakeAborted = true ∧
    (create_worker (Except.ok ())
        (OneshotFate.sent (Except.error e))).result = Except.error e ∧
    st.create_worker key
        (create_worker (Except.ok ()) (OneshotFate.sent (Except.error e)))
      = (st, Except.error e) :=
  ⟨rfl, rfl, rfl⟩

/-- The legacy `Create` arm preserves distinctness of the table's keys:
it inserts only when the key is absent. -/
lemma legacyCreate_nodup (st : LegacyPoolState) (key : String)
    (h : (st.user_workers.map Prod.fst).Nodup) :
    (((legacyCreate st key).1.user_workers).map Prod.fst).Nodup := by
  by_cases hk : (List.lookup key st.user_workers).isSome
  · rw [legacyCreate, if_pos hk]
    exact h
  · have hnot : key ∉ st.user_workers.map Prod.fst := by
      rw [← lookup_isSome_iff_mem_keys]
      simpa using hk
    rw [legacyCreate, if_neg hk]
    simp only [List.map_cons, List.nodup_cons]
    exact ⟨hnot, h⟩

/-- C6. Over every sequence of `Create` messages to the legacy pool loop:
distinctness of live identities is preserved (at most one live worker per
identity at any time); a `Create` for an identity that already has a live
entry leaves the state untouched (boots no new worker, `boots` and the
table unchanged) and replies with that identity; and every caller's reply
equals its requested identity, so all `Create` callers for the same
identity receive the same resulting identity. -/
theorem at_most_one_worker_per_identity (st : LegacyPoolState)
    (keys : List String) :
    ((st.user_workers.map Prod.fst).Nodup →
      (((legacyCreateRun st keys).1.user_workers).map Prod.fst).Nodup) ∧
    (∀ key, (List.lookup key st.user_workers).isSome →
      legacyCreate st key = (st, key)) ∧
    (∀ key reply, (key, reply) ∈ (legacyCreateRun st keys).2 →
      reply = key) := by
  refine ⟨?_, ?_, ?_⟩
  · induction keys generalizing st with
    | nil => intro h; exact h
    | cons k rest ih =>
      intro h
      exact ih (legacyCreate st k).1 (legacyCreate_nodup st k h)
  · intro key h
    rw [legacyCreate, if_pos h]
  · induction keys generalizing st with
    | nil => intro key reply h; cases h
    | cons k rest ih =>
      intro key reply h
      rcases List.mem_cons.mp h with h1 | h1
      · obtain ⟨hk, hr⟩ := Prod.mk.injEq .. ▸ h1
        rw [hr, hk, legacyCreate_snd]
      · exact ih (legacyCreate st k).1 key reply h1

/-- Witness for C6: from a table holding "a", the run ["a", "b"] keeps
keys distinct, and the repeat `Create` for "a" is a no-op replying "a". -/
theorem at_most_one_worker_per_identity_witness :
    (((legacyCreateRun ⟨[("a", 0)], 1, 1⟩ ["a", "b"]).1.user_workers).map
        Prod.fst).Nodup ∧
    legacyCreate ⟨[("a", 0)], 1, 1⟩ "a" = (⟨[("a", 0)], 1, 1⟩, "a") :=
  ⟨(at_most_one_worker_per_identity ⟨[("a", 0)], 1, 1⟩ ["a", "b"]).1
      (by decide),
   (at_most_one_worker_per_identity ⟨[("a", 0)], 1, 1⟩ ["a", "b"]).2.1 "a"
      (by decide)⟩

/-- C7. Every request envelope submitted through the request path is
resolved exactly once: the caller's resolution is fully characterized —
a closed intake channel or a dropped envelope (including the
transport-setup failure paths of `handle_request`, which return early via
`?` and drop the reply sender) resolves the reply channel with an error,
and an answered envelope delivers the response or the hyper failure. No
path leaves the caller unresolved. -/
theorem request_envelope_resolved_once (channelOpen pairOk handshakeOk : Bool)
    (sendResult : Except Nat Nat) :
    (callerResolution channelOpen pairOk handshakeOk sendResult =
      if channelOpen = false then Except.error RequestError.channelClosed
      else if pairOk = false then Except.error RequestError.recvError
      else if handshakeOk = false then Except.error RequestError.recvError
      else
        match sendResult with
        | Except.error code => Except.error (RequestError.hyper code)
        | Except.ok resp => Except.ok resp) ∧
    (send_user_worker_request true (OneshotFate.dropped)
      = Except.error RequestError.recvError) := by
  refine ⟨?_, rfl⟩
  cases channelOpen <;> cases pairOk <;> cases handshakeOk <;>
    cases sendResult <;> rfl

/-- C8. The pool control-plane actor of `create_user_worker_pool` handles
its messages strictly in arrival order, one at a time (the state is
threaded sequentially), and never stops because of a per-request failure:
for every message sequence — including `Create`s whose boot fails — the
handled trace is exactly the arrival sequence, and the loop returns
(stops) precisely when the queue is exhausted (closed). -/
theorem pool_actor_processes_all_in_order (st : RtPoolState)
    (msgs : List UserWorkerMsgs) :
    (create_user_worker_pool_loop st msgs).2 = msgs := by
  induction msgs generalizing st with
  | nil => rfl
  | cons msg rest ih =>
    simp only [create_user_worker_pool_loop]
    rw [ih]

/-- C9 counterexample. When the worker's owning channels are dropped at
the start (so neither the CPU-alarm nor the memory branch can ever fire;
their `Some(_) = rx.recv()` guards are disabled), the supervisor does not
move to a `Dropped` terminal state: it keeps running until the wall-clock
deadline and returns `WallClockTimeLimit`, which is not `Dropped` — the
code has no `Dropped` outcome at all. -/
theorem supervisor_dropped_state_counterexample :
    superviseLoop ⟨50, 100, 2, 1000, 1⟩ true ⟨0, 0⟩ 0
        [SupervisorSignal.wallClock]
      = (some WorkerEvents.WallClockTimeLimit, 1, ⟨0, 0⟩) ∧
    WorkerEvents.WallClockTimeLimit ≠ WorkerEvents.Dropped := by
  exact ⟨rfl, by decide⟩

/-- C9 amended. The Supervisor is a state machine with one live state
(the loop still running) and exactly three terminal states: every event
it can return is `CpuTimeLimit`, `WallClockTimeLimit` or `MemoryLimit`;
dropping the worker's owning channel does not produce a `Dropped`
terminal state (the supervisor then runs until the wall-clock deadline
fires). -/
theorem supervisor_three_terminal_states (conf : UserWorkerRuntimeOpts)
    (termOk : Bool) (s : SupervisorState) (terms : Nat)
    (sigs : List SupervisorSignal) (ev : WorkerEvents)
    (h : (superviseLoop conf termOk s terms sigs).1 = some ev) :
    ev = WorkerEvents.CpuTimeLimit ∨ ev = WorkerEvents.WallClockTimeLimit ∨
      ev = WorkerEvents.MemoryLimit :=
  superviseLoop_event_cases conf termOk sigs s terms ev h

/-- Witness for C9's amended theorem: a memory-pressure wakeup ends the
run in the `MemoryLimit` terminal state, one of the three. -/
theorem supervisor_three_terminal_states_witness :
    WorkerEvents.MemoryLimit = WorkerEvents.CpuTimeLimit ∨
    WorkerEvents.MemoryLimit = WorkerEvents.WallClockTimeLimit ∨
    WorkerEvents.MemoryLimit = WorkerEvents.MemoryLimit :=
  supervisor_three_terminal_states ⟨50, 100, 2, 1000, 1⟩ true ⟨0, 0⟩ 0
    [SupervisorSignal.memoryPressure] WorkerEvents.MemoryLimit rfl

/-- C10. `create_supervisor` presupposes a user-worker configuration: for
every `UserWorker` configuration the `as_user_worker` access succeeds and
the call does not panic (it returns, with the CPU-timer outcome deciding
ok or error), while for the `MainWorker` or `EventsWorker` configurations
the unwrap panics (`none`) instead of returning an error. -/
theorem create_supervisor_user_worker_only (conf : WorkerRuntimeOpts)
    (cpuTimerOk : Bool) :
    (∀ u, conf = WorkerRuntimeOpts.UserWorker u →
      (create_supervisor conf cpuTimerOk).isSome = true) ∧
    ((conf = WorkerRuntimeOpts.MainWorker ∨
        conf = WorkerRuntimeOpts.EventsWorker) →
      create_supervisor conf cpuTimerOk = none) := by
  constructor
  · rintro u rfl
    cases cpuTimerOk <;> rfl
  · rintro (rfl | rfl) <;> rfl

/-- Witness for C10: a user-worker configuration yields a non-panicking
call; a main-worker configuration panics. -/
theorem create_supervisor_user_worker_only_witness :
    (create_supervisor (WorkerRuntimeOpts.UserWorker ⟨50, 100, 2, 1000, 1⟩)
        true).isSome = true ∧
    create_supervisor WorkerRuntimeOpts.MainWorker true = none :=
  ⟨(create_supervisor_user_worker_only
      (WorkerRuntimeOpts.UserWorker ⟨50, 100, 2, 1000, 1⟩) true).1
      ⟨50, 100, 2, 1000, 1⟩ rfl,
   (create_supervisor_user_worker_only WorkerRuntimeOpts.MainWorker true).2
      (Or.inl rfl)⟩

end EdgeRuntime
